import Mathlib

/-
Verification of the Blender scripting utilities in tools.py.

The Python module drives Blender through bpy; the logic the claims are about
is embedded shallowly:
  * Python floats are modelled as real numbers;
  * mathutils.Vector is the structure Vec3;
  * a bmesh vertex is the structure Vertex (only its coordinate field is
    touched by the code under study); vertex indices are list positions,
    matching bmesh after ensure_lookup_table;
  * the Blender scene (bpy.data.objects together with the active object) is
    the structure Scene; an object's name, type, selection flag and layer
    flags are the fields the code reads or writes;
  * a fallible Python function (one that may raise) returns Except.
-/

/-- mathutils.Vector restricted to 3 components, as used by tools.py. -/
structure Vec3 where
  x : ℝ
  y : ℝ
  z : ℝ

instance : Sub Vec3 :=
  ⟨fun a b => ⟨a.x - b.x, a.y - b.y, a.z - b.z⟩⟩

/-- mathutils cross product. -/
def Vec3.cross (a b : Vec3) : Vec3 :=
  ⟨a.y * b.z - a.z * b.y, a.z * b.x - a.x * b.z, a.x * b.y - a.y * b.x⟩

/-- mathutils Vector.magnitude: the Euclidean length. -/
noncomputable def Vec3.magnitude (a : Vec3) : ℝ :=
  Real.sqrt (a.x ^ 2 + a.y ^ 2 + a.z ^ 2)

/-- mathutils Vector.normalized: the vector divided by its length (the zero
vector when the length is zero, which matches mathutils). -/
noncomputable def Vec3.normalized (a : Vec3) : Vec3 :=
  ⟨a.x / a.magnitude, a.y / a.magnitude, a.z / a.magnitude⟩

/-- A bmesh vertex; the code reads and writes only its coordinate `co`. -/
structure Vertex where
  co : Vec3

/-- tools.get_distance_between_points (tools.py lines 134-143). -/
noncomputable def get_distance_between_points (v0 v1 : Vertex) : ℝ :=
  Real.sqrt
    ((v0.co.x - v1.co.x) ^ 2 +
     (v0.co.y - v1.co.y) ^ 2 +
     (v0.co.z - v1.co.z) ^ 2)

/-- tools.get_planar_angle (tools.py lines 114-132): the angle at v1 between
v0 and v2 by the law of cosines, 0 when v1 coincides with an endpoint. -/
noncomputable def get_planar_angle (v0 v1 v2 : Vertex) : ℝ :=
  let a := get_distance_between_points v0 v2
  let b := get_distance_between_points v0 v1
  let c := get_distance_between_points v1 v2
  if b = 0 ∨ c = 0 then 0
  else Real.arccos ((b * b + c * c - a * a) / (2 * b * c))

/-- math.degrees: radians to degrees. -/
noncomputable def degrees (r : ℝ) : ℝ :=
  r * 180 / Real.pi

/-- tools.collapse_points_on_line (tools.py lines 145-151): when the angle at
v1, in degrees, exceeds the threshold, v1's coordinates are set to v0's. -/
noncomputable def collapse_points_on_line (v0 v1 v2 : Vertex) (angle : ℝ) :
    Vertex :=
  let a := get_planar_angle v0 v1 v2
  if degrees a > angle then { v1 with co := v0.co } else v1

/-- A bmesh as the collapse routine sees it: vertices (a vertex's index is its
position in the list, as after ensure_lookup_table) and edges, each edge the
pair of indices of its two endpoint vertices. -/
structure BMesh where
  verts : List Vertex
  edges : List (ℕ × ℕ)

/-- tools.get_vertex_neighbors (tools.py lines 73-87): walk every edge of the
bmesh and collect the other endpoint of every edge incident to vertex v0,
in edge order. -/
def get_vertex_neighbors (bm : BMesh) (v0 : ℕ) : List ℕ :=
  bm.edges.foldl
    (fun edges e =>
      if e.1 = v0 then edges ++ [e.2]
      else if e.2 = v0 then edges ++ [e.1]
      else edges)
    []

/-- The vertex a lookup falls back to for an index outside the vertex list;
a well-formed bmesh never reaches it (Python would raise IndexError). -/
def default_vertex : Vertex :=
  ⟨⟨0, 0, 0⟩⟩

/-- One iteration of the loop of tools.collapse_edges_in_order (tools.py
lines 60-69) at vertex index i: when i has exactly two neighbors, collapse it
between them (the loop mutates the vertex in place; here the list is updated
at position i); otherwise only a message is printed and nothing changes. -/
noncomputable def collapse_step (angle : ℝ) (bm : BMesh) (i : ℕ) : BMesh :=
  let neighbors := get_vertex_neighbors bm i
  if neighbors.length = 2 then
    { bm with
      verts := bm.verts.set i
        (collapse_points_on_line
          (bm.verts.getD (neighbors.getD 0 0) default_vertex)
          (bm.verts.getD i default_vertex)
          (bm.verts.getD (neighbors.getD 1 0) default_vertex)
          angle) }
  else bm

/-- tools.collapse_edges_in_order (tools.py lines 53-71), restricted to its
bmesh transformation: the loop over all vertices in index order, each
iteration seeing the mutations of the previous ones.  (The final
update_object_from_bmesh writes the bmesh back into the Blender object and is
host-side.) -/
noncomputable def collapse_edges_in_order (bm : BMesh) (angle : ℝ) : BMesh :=
  (List.range bm.verts.length).foldl (collapse_step angle) bm

/-- A 3x3 matrix from three row vectors: mathutils Matrix([a, b, c]). -/
def matrix_from_rows (r0 r1 r2 : Vec3) : Matrix (Fin 3) (Fin 3) ℝ :=
  Matrix.of ![![r0.x, r0.y, r0.z], ![r1.x, r1.y, r1.z], ![r2.x, r2.y, r2.z]]

/-- mathutils Matrix.to_4x4(): the 3x3 block in the upper left, the rest from
the identity. -/
def to_4x4 (m : Matrix (Fin 3) (Fin 3) ℝ) : Matrix (Fin 4) (Fin 4) ℝ :=
  Matrix.of fun i j =>
    if h : i.val < 3 ∧ j.val < 3 then m ⟨i.val, h.1⟩ ⟨j.val, h.2⟩
    else if i = j then 1 else 0

/-- mathutils Matrix.Translation(v): the 4x4 translation matrix by v. -/
def matrix_translation (v : Vec3) : Matrix (Fin 4) (Fin 4) ℝ :=
  Matrix.of
    ![![1, 0, 0, v.x], ![0, 1, 0, v.y], ![0, 0, 1, v.z], ![0, 0, 0, 1]]

/-- mathutils Matrix.Scale(s, 4) with no axis: uniform scale by s. -/
def matrix_scale4 (s : ℝ) : Matrix (Fin 4) (Fin 4) ℝ :=
  Matrix.of ![![s, 0, 0, 0], ![0, s, 0, 0], ![0, 0, s, 0], ![0, 0, 0, 1]]

/-- tools.make_matrix (tools.py lines 89-106): the transformation matrix
spanned by three points, raising when they are colinear. -/
noncomputable def make_matrix (v1 v2 v3 : Vec3) :
    Except String (Matrix (Fin 4) (Fin 4) ℝ) :=
  let a := v2 - v1
  let b := v3 - v1
  let c := a.cross b
  if c.magnitude > 0 then
    let c2 := c.normalized
    let b2 := (c2.cross a).normalized
    let a2 := a.normalized
    let m := (matrix_from_rows a2 b2 c2).transpose
    let s := a.magnitude
    Except.ok (matrix_translation v1 * matrix_scale4 s * to_4x4 m)
  else
    Except.error "A B C are colinear"

/-- A Blender object as tools.py reads and writes it: its name (unique in
bpy.data.objects), its type string (for example MESH or CAMERA), its
selection flag o.select and its layer flags o.layers. -/
structure Obj where
  name : String
  type : String
  select : Bool
  layers : List Bool
deriving DecidableEq

/-- The scene state the module touches: bpy.data.objects in order, and the
name of the active object (bpy.context.scene.objects.active). -/
structure Scene where
  objects : List Obj
  active : Option String
deriving DecidableEq

/-- bpy.ops.object.select_all(action=DESELECT): clear every selection flag. -/
def select_all_deselect (s : Scene) : Scene :=
  { s with objects := s.objects.map fun o => { o with select := false } }

/-- tools.delete_selected_objects (tools.py lines 177-179), i.e.
bpy.ops.object.delete(): remove every selected object from the scene. -/
def delete_selected_objects (s : Scene) : Scene :=
  { s with objects := s.objects.filter fun o => !o.select }

/-- tools.delete_all_cameras (tools.py lines 164-170): deselect everything,
select each object whose type is CAMERA, delete the selection. -/
def delete_all_cameras (s : Scene) : Scene :=
  let s1 := select_all_deselect s
  let s2 :=
    { s1 with
      objects := s1.objects.map fun o =>
        if o.type == "CAMERA" then { o with select := true } else o }
  delete_selected_objects s2

/-- tools.select_object (tools.py lines 216-226): raise on None, otherwise
deselect everything, make the object active and set its selection flag (an
object's flag is addressed by its unique name; the mode_set call and the
self-assignment of the active object do not change the modelled state). -/
def select_object (obj : Option Obj) (s : Scene) : Except String Scene :=
  match obj with
  | none =>
      Except.error "Error: the object that you are trying to select does not exist"
  | some o =>
      let s1 := select_all_deselect s
      let s2 := { s1 with active := some o.name }
      Except.ok
        { s2 with
          objects := s2.objects.map fun p =>
            if p.name == o.name then { p with select := true } else p }

/-- tools.import_fbx (tools.py lines 197-201): the imported file's objects
are appended to the scene. -/
def import_fbx (s : Scene) (content : List Obj) : Scene :=
  { s with objects := s.objects ++ content }

/-- tools.import_agisoft_scan (tools.py lines 184-195): import the fbx,
delete all cameras, raise unless exactly one object remains, return
bpy.data.objects[0]. -/
def import_agisoft_scan (s : Scene) (content : List Obj) :
    Except String (Obj × Scene) :=
  let s2 := delete_all_cameras (import_fbx s content)
  if s2.objects.length ≠ 1 then
    Except.error
      "Error: There should be only one object imported - check the contents of the fbx file"
  else
    match s2.objects with
    | o :: _ => Except.ok (o, s2)
    | [] =>
        -- unreachable: the guard above already raised when the list is empty
        Except.error
          "Error: There should be only one object imported - check the contents of the fbx file"

/-- tools.move_object_to_layer (tools.py lines 203-214), acting on the
object's layer flags: set flag i (editor layer number layer, i.e. index
layer - 1, index 9 for layer 0), then clear every other flag. -/
def move_object_to_layer (layers : List Bool) (layer : ℕ) : List Bool :=
  let i := if layer = 0 then 9 else layer - 1
  let l1 := layers.set i true
  (List.range l1.length).foldl
    (fun acc idx => if idx ≠ i then acc.set idx false else acc) l1

/-- The UV-assignment portion of tools.render_360_for_camera (tools.py lines
284-325): the cube's uv layer, a map from loop index to a (u, v) pair, is
written at the 24 hard-coded loop indices while x_pos advances by 1/6 after
each face's leading pair of writes. -/
noncomputable def render_360_uv_assign (d : ℕ → ℝ × ℝ) : ℕ → ℝ × ℝ :=
  let x0 : ℝ := 0
  -- +X (8, 11, 9, 10)
  let d := Function.update d 8 (x0, 0)
  let d := Function.update d 11 (x0, 1)
  let x1 := x0 + 1 / 6
  let d := Function.update d 9 (x1, 0)
  let d := Function.update d 10 (x1, 1)
  -- -X (0, 3, 1, 2)
  let d := Function.update d 0 (x1, 0)
  let d := Function.update d 3 (x1, 1)
  let x2 := x1 + 1 / 6
  let d := Function.update d 1 (x2, 0)
  let d := Function.update d 2 (x2, 1)
  -- +Y (4, 7, 5, 6)
  let d := Function.update d 4 (x2, 0)
  let d := Function.update d 7 (x2, 1)
  let x3 := x2 + 1 / 6
  let d := Function.update d 5 (x3, 0)
  let d := Function.update d 6 (x3, 1)
  -- -Y (12, 15, 13, 14)
  let d := Function.update d 12 (x3, 0)
  let d := Function.update d 15 (x3, 1)
  let x4 := x3 + 1 / 6
  let d := Function.update d 13 (x4, 0)
  let d := Function.update d 14 (x4, 1)
  -- +Z (20, 23, 21, 22)
  let d := Function.update d 20 (x4, 0)
  let d := Function.update d 23 (x4, 1)
  let x5 := x4 + 1 / 6
  let d := Function.update d 21 (x5, 0)
  let d := Function.update d 22 (x5, 1)
  -- -Z (16, 19, 17, 18)
  let d := Function.update d 16 (x5, 0)
  let d := Function.update d 19 (x5, 1)
  let x6 := x5 + 1 / 6
  let d := Function.update d 17 (x6, 0)
  let d := Function.update d 18 (x6, 1)
  d

/-- The six cube faces in the order the source writes them (+X, -X, +Y, -Y,
+Z, -Z), each with its four hard-coded loop indices: the two that get the
strip's left u value at v = 0 and v = 1, then the two that get the strip's
right u value at v = 0 and v = 1. -/
def cube_face_loops : Fin 6 → ℕ × ℕ × ℕ × ℕ :=
  ![(8, 11, 9, 10), (0, 3, 1, 2), (4, 7, 5, 6),
    (12, 15, 13, 14), (20, 23, 21, 22), (16, 19, 17, 18)]

lemma Vec3.sub_def (a b : Vec3) :
    a - b = ⟨a.x - b.x, a.y - b.y, a.z - b.z⟩ := rfl

lemma get_distance_eq_zero_of_co_eq {v0 v1 : Vertex} (h : v0.co = v1.co) :
    get_distance_between_points v0 v1 = 0 := by
  simp [get_distance_between_points, h]

/-- C1: collapse_points_on_line collapses v1 onto v0 (sets v1's coordinates
equal to v0's) exactly when the angle at v1 computed by get_planar_angle,
converted to degrees, strictly exceeds the threshold; otherwise v1 is
returned unchanged. -/
theorem collapse_points_on_line_spec (v0 v1 v2 : Vertex) (angle : ℝ) :
    (degrees (get_planar_angle v0 v1 v2) > angle →
      collapse_points_on_line v0 v1 v2 angle = { v1 with co := v0.co }) ∧
    (¬ degrees (get_planar_angle v0 v1 v2) > angle →
      collapse_points_on_line v0 v1 v2 angle = v1) := by
  constructor <;> intro h <;> simp [collapse_points_on_line, h]

/-- C1 witness: three colinear points give the angle pi at the middle vertex,
180 degrees, which exceeds the threshold 90, so the middle vertex is moved
onto the first. -/
theorem collapse_points_on_line_witness :
    collapse_points_on_line ⟨⟨0, 0, 0⟩⟩ ⟨⟨1, 0, 0⟩⟩ ⟨⟨2, 0, 0⟩⟩ 90 =
      ⟨⟨0, 0, 0⟩⟩ := by
  have ha : get_distance_between_points ⟨⟨0, 0, 0⟩⟩ ⟨⟨2, 0, 0⟩⟩ = 2 := by
    norm_num [get_distance_between_points]
    rw [show (4 : ℝ) = 2 ^ 2 by norm_num, Real.sqrt_sq (by norm_num : (0:ℝ) ≤ 2)]
  have hb : get_distance_between_points ⟨⟨0, 0, 0⟩⟩ ⟨⟨1, 0, 0⟩⟩ = 1 := by
    norm_num [get_distance_between_points]
  have hc : get_distance_between_points ⟨⟨1, 0, 0⟩⟩ ⟨⟨2, 0, 0⟩⟩ = 1 := by
    norm_num [get_distance_between_points]
  have hang : get_planar_angle ⟨⟨0, 0, 0⟩⟩ ⟨⟨1, 0, 0⟩⟩ ⟨⟨2, 0, 0⟩⟩ = Real.pi := by
    simp only [get_planar_angle, ha, hb, hc]
    norm_num
  exact (collapse_points_on_line_spec _ _ _ _).1 (by
    rw [hang]
    simp only [degrees]
    rw [mul_comm, mul_div_assoc, div_self Real.pi_ne_zero, mul_one]
    norm_num)

/-- C8: get_planar_angle returns 0 when the middle vertex coincides with an
endpoint (the distance b or c is zero); when both distances are nonzero the
law-of-cosines quotient is evaluated and its denominator 2*b*c is nonzero. -/
theorem get_planar_angle_guard (v0 v1 v2 : Vertex) :
    ((v1.co = v0.co ∨ v1.co = v2.co) → get_planar_angle v0 v1 v2 = 0) ∧
    (get_distance_between_points v0 v1 ≠ 0 →
      get_distance_between_points v1 v2 ≠ 0 →
      2 * get_distance_between_points v0 v1 * get_distance_between_points v1 v2 ≠ 0 ∧
      get_planar_angle v0 v1 v2 =
        Real.arccos
          ((get_distance_between_points v0 v1 * get_distance_between_points v0 v1 +
            get_distance_between_points v1 v2 * get_distance_between_points v1 v2 -
            get_distance_between_points v0 v2 * get_distance_between_points v0 v2) /
           (2 * get_distance_between_points v0 v1 * get_distance_between_points v1 v2))) := by
  constructor
  · rintro (h | h)
    · have hb : get_distance_between_points v0 v1 = 0 :=
        get_distance_eq_zero_of_co_eq h.symm
      simp [get_planar_angle, hb]
    · have hc : get_distance_between_points v1 v2 = 0 :=
        get_distance_eq_zero_of_co_eq h
      simp [get_planar_angle, hc]
  · intro hb hc
    refine ⟨mul_ne_zero (mul_ne_zero two_ne_zero hb) hc, ?_⟩
    simp [get_planar_angle, hb, hc]

/-- C8 witness: with the middle vertex equal to the first, the angle is 0. -/
theorem get_planar_angle_guard_witness :
    get_planar_angle ⟨⟨0, 0, 0⟩⟩ ⟨⟨0, 0, 0⟩⟩ ⟨⟨1, 0, 0⟩⟩ = 0 :=
  (get_planar_angle_guard ⟨⟨0, 0, 0⟩⟩ ⟨⟨0, 0, 0⟩⟩ ⟨⟨1, 0, 0⟩⟩).1 (Or.inl rfl)

/-- C3: make_matrix raises exactly when the cross product of (v2 - v1) and
(v3 - v1) has zero magnitude (the colinear case); for every other input it
returns a matrix without raising. -/
theorem make_matrix_error_iff_zero_cross (v1 v2 v3 : Vec3) :
    (make_matrix v1 v2 v3 = Except.error "A B C are colinear" ↔
      ((v2 - v1).cross (v3 - v1)).magnitude = 0) ∧
    (((v2 - v1).cross (v3 - v1)).magnitude ≠ 0 →
      ∃ m, make_matrix v1 v2 v3 = Except.ok m) := by
  have hnn : 0 ≤ ((v2 - v1).cross (v3 - v1)).magnitude := Real.sqrt_nonneg _
  by_cases hpos : ((v2 - v1).cross (v3 - v1)).magnitude > 0
  · have hne : ((v2 - v1).cross (v3 - v1)).magnitude ≠ 0 := ne_of_gt hpos
    constructor
    · simp [make_matrix, hpos, hne]
    · intro _
      cases hmk : make_matrix v1 v2 v3 with
      | ok m => exact ⟨m, rfl⟩
      | error e => rw [make_matrix] at hmk; simp [hpos] at hmk
  · have h0 : ((v2 - v1).cross (v3 - v1)).magnitude = 0 :=
      le_antisymm (not_lt.mp hpos) hnn
    constructor
    · simp [make_matrix, hpos, h0]
    · intro hne
      exact absurd h0 hne

/-- C3 witness: the triple (0,0,0), (1,0,0), (0,1,0) is not colinear (its
cross product is (0,0,1), of magnitude 1), and make_matrix returns a
matrix on it. -/
theorem make_matrix_witness :
    ∃ m, make_matrix ⟨0, 0, 0⟩ ⟨1, 0, 0⟩ ⟨0, 1, 0⟩ = Except.ok m := by
  refine (make_matrix_error_iff_zero_cross ⟨0, 0, 0⟩ ⟨1, 0, 0⟩ ⟨0, 1, 0⟩).2 ?_
  norm_num [Vec3.sub_def, Vec3.cross, Vec3.magnitude]

/-- C4: select_object raises a ValueError when the object is None; for every
object it deselects all other objects, makes the object active and selects
it, without raising. -/
theorem select_object_spec (s : Scene) (o : Obj) :
    select_object none s =
      Except.error "Error: the object that you are trying to select does not exist" ∧
    select_object (some o) s =
      Except.ok
        { objects := s.objects.map fun p => { p with select := p.name == o.name },
          active := some o.name } := by
  refine ⟨rfl, ?_⟩
  simp only [select_object, select_all_deselect, List.map_map]
  have hfun :
      ((fun p : Obj =>
          if (p.name == o.name) = true then { p with select := true } else p) ∘
        fun q : Obj => { q with select := false }) =
      fun p : Obj => { p with select := p.name == o.name } := by
    funext p
    cases hp : p.name == o.name <;> simp [Function.comp, hp]
  rw [hfun]

lemma delete_all_cameras_objects (l : List Obj) :
    (((l.map fun o => { o with select := false }).map fun o =>
        if o.type == "CAMERA" then { o with select := true } else o).filter
      fun o => !o.select) =
    (l.filter fun o => !(o.type == "CAMERA")).map
      fun o => { o with select := false } := by
  induction l with
  | nil => rfl
  | cons a l ih =>
    by_cases h : a.type = "CAMERA" <;>
      simp [h, List.map_map, List.filter_cons] at ih ⊢ <;>
      simp [ih]

/-- C9 counterexample: a scene holding one selected MESH object.  The object
is no camera, yet delete_all_cameras does not leave it unchanged: its
selection flag has been cleared. -/
theorem delete_all_cameras_changes_noncamera :
    (delete_all_cameras
        { objects := [{ name := "Cube", type := "MESH", select := true, layers := [] }],
          active := none }).objects ≠
      [{ name := "Cube", type := "MESH", select := true, layers := [] }] ∧
    "MESH" ≠ "CAMERA" := by
  decide

/-- C9 (amended): delete_all_cameras removes exactly the objects of type
CAMERA; every non-camera object remains, in order, with every attribute but
its selection flag unchanged and its selection flag cleared. -/
theorem delete_all_cameras_spec (s : Scene) :
    (delete_all_cameras s).objects =
      (s.objects.filter fun o => !(o.type == "CAMERA")).map
        (fun o => { o with select := false }) ∧
    ∀ o ∈ (delete_all_cameras s).objects, o.type ≠ "CAMERA" := by
  have h2 : (delete_all_cameras s).objects =
      (s.objects.filter fun o => !(o.type == "CAMERA")).map
        (fun o => { o with select := false }) := by
    simp only [delete_all_cameras, select_all_deselect, delete_selected_objects]
    exact delete_all_cameras_objects s.objects
  refine ⟨h2, ?_⟩
  intro o ho
  rw [h2] at ho
  obtain ⟨p, hp, rfl⟩ := List.mem_map.mp ho
  have hfp := (List.mem_filter.mp hp).2
  simpa using hfp

/-- C2 counterexample: an empty scene and an fbx holding a single camera.
After the import and the camera deletion zero objects remain - not more than
one - yet import_agisoft_scan raises. -/
theorem import_agisoft_scan_raises_on_zero_objects :
    (∃ e, import_agisoft_scan { objects := [], active := none }
        [{ name := "Camera", type := "CAMERA", select := false, layers := [] }] =
      Except.error e) ∧
    (delete_all_cameras (import_fbx { objects := [], active := none }
        [{ name := "Camera", type := "CAMERA", select := false, layers := [] }])).objects.length
      = 0 := by
  exact ⟨⟨_, rfl⟩, rfl⟩

/-- C2 (amended): import_agisoft_scan raises exactly when the number of
objects remaining after the import and the camera deletion differs from one;
when exactly one object remains it is returned together with the scene. -/
theorem import_agisoft_scan_spec (s : Scene) (content : List Obj) :
    ((∃ e, import_agisoft_scan s content = Except.error e) ↔
      (delete_all_cameras (import_fbx s content)).objects.length ≠ 1) ∧
    ∀ o, (delete_all_cameras (import_fbx s content)).objects = [o] →
      import_agisoft_scan s content =
        Except.ok (o, delete_all_cameras (import_fbx s content)) := by
  constructor
  · by_cases h : (delete_all_cameras (import_fbx s content)).objects.length = 1
    · obtain ⟨o, ho⟩ := List.length_eq_one.mp h
      simp [import_agisoft_scan, ho]
    · simp [import_agisoft_scan, h]
  · intro o ho
    simp [import_agisoft_scan, ho]

/-- C2 witness: an fbx holding exactly one MESH object; it is returned. -/
theorem import_agisoft_scan_witness :
    import_agisoft_scan { objects := [], active := none }
        [{ name := "Model", type := "MESH", select := false, layers := [] }] =
      Except.ok
        ({ name := "Model", type := "MESH", select := false, layers := [] },
          delete_all_cameras (import_fbx { objects := [], active := none }
            [{ name := "Model", type := "MESH", select := false, layers := [] }])) :=
  (import_agisoft_scan_spec { objects := [], active := none }
      [{ name := "Model", type := "MESH", select := false, layers := [] }]).2
    { name := "Model", type := "MESH", select := false, layers := [] }
    (by decide)

lemma get_vertex_neighbors_foldl (v0 : ℕ) (es : List (ℕ × ℕ)) (acc : List ℕ) :
    es.foldl
      (fun edges e =>
        if e.1 = v0 then edges ++ [e.2]
        else if e.2 = v0 then edges ++ [e.1]
        else edges) acc =
    acc ++ es.filterMap
      (fun e => if e.1 = v0 then some e.2
        else if e.2 = v0 then some e.1 else none) := by
  induction es generalizing acc with
  | nil => simp
  | cons e es ih =>
    by_cases h1 : e.1 = v0
    · simp [h1, ih]
    · by_cases h2 : e.2 = v0 <;> simp [h1, h2, ih]

lemma collapse_step_edges (angle : ℝ) (bm : BMesh) (i : ℕ) :
    (collapse_step angle bm i).edges = bm.edges := by
  simp only [collapse_step]
  split <;> rfl

lemma get_vertex_neighbors_congr {bm bm' : BMesh} (h : bm'.edges = bm.edges)
    (v0 : ℕ) : get_vertex_neighbors bm' v0 = get_vertex_neighbors bm v0 := by
  simp only [get_vertex_neighbors, h]

lemma collapse_step_get_ne (angle : ℝ) (bm : BMesh) {i j : ℕ} (h : j ≠ i) :
    (collapse_step angle bm j).verts.get? i = bm.verts.get? i := by
  simp only [collapse_step]
  split
  · exact List.get?_set_ne _ _ h
  · rfl

lemma collapse_step_self (angle : ℝ) (bm : BMesh) {i : ℕ}
    (h : (get_vertex_neighbors bm i).length ≠ 2) :
    collapse_step angle bm i = bm := by
  simp only [collapse_step]
  rw [if_neg h]

lemma foldl_collapse_edges (angle : ℝ) (l : List ℕ) (bm : BMesh) :
    (l.foldl (collapse_step angle) bm).edges = bm.edges := by
  induction l generalizing bm with
  | nil => rfl
  | cons j l ih => rw [List.foldl_cons, ih, collapse_step_edges]

lemma foldl_collapse_get (angle : ℝ) (i : ℕ) (l : List ℕ) (bm : BMesh)
    (h : (get_vertex_neighbors bm i).length ≠ 2) :
    (l.foldl (collapse_step angle) bm).verts.get? i = bm.verts.get? i := by
  induction l generalizing bm with
  | nil => rfl
  | cons j l ih =>
    rw [List.foldl_cons]
    have h' : (get_vertex_neighbors (collapse_step angle bm j) i).length ≠ 2 := by
      rw [get_vertex_neighbors_congr (collapse_step_edges angle bm j)]
      exact h
    rw [ih _ h']
    by_cases hj : j = i
    · subst hj
      rw [collapse_step_self angle bm h]
    · exact collapse_step_get_ne angle bm hj

/-- C5: the collapse loop visits every vertex in index order; a vertex's
neighbor list is the other endpoint of every edge incident to it, in edge
order; the edges are never changed; and every vertex whose neighbor list does
not have length exactly two keeps its entry (in particular its coordinates)
untouched by the whole loop. -/
theorem collapse_edges_in_order_spec (bm : BMesh) (angle : ℝ) :
    (∀ v0, get_vertex_neighbors bm v0 =
      bm.edges.filterMap
        (fun e => if e.1 = v0 then some e.2
          else if e.2 = v0 then some e.1 else none)) ∧
    (collapse_edges_in_order bm angle).edges = bm.edges ∧
    ∀ i, (get_vertex_neighbors bm i).length ≠ 2 →
      (collapse_edges_in_order bm angle).verts.get? i = bm.verts.get? i := by
  refine ⟨?_, ?_, ?_⟩
  · intro v0
    have h := get_vertex_neighbors_foldl v0 bm.edges []
    simpa [get_vertex_neighbors] using h
  · exact foldl_collapse_edges angle _ bm
  · intro i h
    exact foldl_collapse_get angle i _ bm h

/-- C5 witness: a bmesh with a single vertex and no edges; the vertex has
zero neighbors, so the loop leaves it in place. -/
theorem collapse_edges_in_order_witness :
    (collapse_edges_in_order { verts := [⟨⟨0, 0, 0⟩⟩], edges := [] } 10).verts.get? 0 =
      some ⟨⟨0, 0, 0⟩⟩ := by
  have h :=
    (collapse_edges_in_order_spec { verts := [⟨⟨0, 0, 0⟩⟩], edges := [] } 10).2.2 0
      (by simp [get_vertex_neighbors])
  exact h.trans rfl

lemma foldl_set_false_length (i : ℕ) (idxs : List ℕ) (l : List Bool) :
    (idxs.foldl (fun acc idx => if idx ≠ i then acc.set idx false else acc) l).length
      = l.length := by
  induction idxs generalizing l with
  | nil => rfl
  | cons idx idxs ih =>
    rw [List.foldl_cons, ih]
    split <;> simp

lemma foldl_set_false_get (i : ℕ) (idxs : List ℕ) (l : List Bool) (j : ℕ)
    (hj : j < l.length) :
    (idxs.foldl (fun acc idx => if idx ≠ i then acc.set idx false else acc) l).get? j
      = if j ∈ idxs ∧ j ≠ i then some false else l.get? j := by
  induction idxs generalizing l with
  | nil => simp
  | cons idx idxs ih =>
    rw [List.foldl_cons]
    have hj' : j < (if idx ≠ i then l.set idx false else l).length := by
      split <;> simpa
    rw [ih _ hj']
    by_cases hji : j = i
    · have h1 : ¬(j ∈ idxs ∧ j ≠ i) := fun hc => hc.2 hji
      have h2 : ¬(j ∈ idx :: idxs ∧ j ≠ i) := fun hc => hc.2 hji
      rw [if_neg h1, if_neg h2]
      by_cases hidx : idx ≠ i
      · rw [if_pos hidx]
        exact List.get?_set_ne _ _ (by rw [hji]; exact hidx)
      · rw [if_neg hidx]
    · by_cases hjin : j ∈ idxs
      · have h1 : j ∈ idxs ∧ j ≠ i := ⟨hjin, hji⟩
        have h2 : j ∈ idx :: idxs ∧ j ≠ i := ⟨List.mem_cons_of_mem _ hjin, hji⟩
        rw [if_pos h1, if_pos h2]
      · have h1 : ¬(j ∈ idxs ∧ j ≠ i) := fun hc => hjin hc.1
        rw [if_neg h1]
        by_cases hjidx : j = idx
        · subst hjidx
          have h2 : j ∈ j :: idxs ∧ j ≠ i := ⟨List.mem_cons_self j idxs, hji⟩
          rw [if_pos h2, if_pos hji]
          exact List.get?_set_eq_of_lt _ hj
        · have h2 : ¬(j ∈ idx :: idxs ∧ j ≠ i) := fun hc =>
            (List.mem_cons.mp hc.1).elim (fun he => hjidx he) (fun hm => hjin hm)
          rw [if_neg h2]
          by_cases hidx : idx ≠ i
          · rw [if_pos hidx]
            exact List.get?_set_ne _ _ (fun he => hjidx he.symm)
          · rw [if_neg hidx]

/-- C10: after move_object_to_layer with a layer number of the editor's
numbering (1 through the number of layers, or 0 for editor layer 10), the
flag at index layer - 1 (index 9 for layer 0) is the only True entry. -/
theorem move_object_to_layer_spec (layers : List Bool) (layer : ℕ)
    (h : (1 ≤ layer ∧ layer ≤ layers.length) ∨ (layer = 0 ∧ 10 ≤ layers.length)) :
    (move_object_to_layer layers layer).length = layers.length ∧
    ∀ j, j < layers.length →
      (move_object_to_layer layers layer).get? j =
        some (decide (j = if layer = 0 then 9 else layer - 1)) := by
  set i := if layer = 0 then 9 else layer - 1 with hi
  have hilt : i < layers.length := by
    rcases h with ⟨h1, h2⟩ | ⟨h0, h10⟩
    · rw [hi, if_neg (by omega)]
      omega
    · rw [hi, if_pos h0]
      omega
  have hlen1 : (layers.set i true).length = layers.length := by simp
  constructor
  · simp only [move_object_to_layer]
    rw [← hi, foldl_set_false_length, hlen1]
  · intro j hj
    simp only [move_object_to_layer]
    rw [← hi, foldl_set_false_get i _ _ j (by simpa [hlen1] using hj)]
    by_cases hji : j = i
    · subst hji
      rw [if_neg (fun hc => hc.2 rfl)]
      rw [List.get?_set_eq_of_lt _ hilt]
      simp
    · rw [if_pos ⟨List.mem_range.mpr (by simpa [hlen1] using hj), hji⟩]
      simp [hji]

/-- C10 witness: a four-layer object moved to editor layer 3: index 2 is the
one True entry, index 1 (True before the move) is cleared. -/
theorem move_object_to_layer_witness :
    (move_object_to_layer [false, true, false, true] 3).get? 2 = some true ∧
    (move_object_to_layer [false, true, false, true] 3).get? 1 = some false := by
  have H := move_object_to_layer_spec [false, true, false, true] 3 (Or.inl (by decide))
  exact ⟨(H.2 2 (by decide)).trans (by decide),
    (H.2 1 (by decide)).trans (by decide)⟩

/-- C6: the six faces, in the order +X, -X, +Y, -Y, +Z, -Z, occupy six
consecutive horizontal strips of width 1/6: face k's first two hard-coded
loop indices get u = k/6 at v = 0 and v = 1, its last two get u = (k+1)/6 at
v = 0 and v = 1, whatever the uv layer held before. -/
theorem render_360_uv_strips (d : ℕ → ℝ × ℝ) (k : Fin 6) :
    render_360_uv_assign d (cube_face_loops k).1 = ((k.val : ℝ) / 6, 0) ∧
    render_360_uv_assign d (cube_face_loops k).2.1 = ((k.val : ℝ) / 6, 1) ∧
    render_360_uv_assign d (cube_face_loops k).2.2.1 = (((k.val : ℝ) + 1) / 6, 0) ∧
    render_360_uv_assign d (cube_face_loops k).2.2.2 = (((k.val : ℝ) + 1) / 6, 1) := by
  fin_cases k <;>
    refine ⟨?_, ?_, ?_, ?_⟩ <;>
      · simp only [render_360_uv_assign, cube_face_loops, Function.update_apply,
          Prod.mk.injEq]
        norm_num

